import Mathlib

/-!
Verification of the smart_surface ultrasonic measurement and classification
pipeline against its design document.  The Python sources are shallowly
embedded over exact rationals: machine floats become rationals, the Python
round builtin becomes round-half-to-even on rationals, wall-clock time in the
polling loops is discretized to one unit per loop iteration, and standard
deviations are carried as their squares (variances) so that every numeric
definition stays inside the rational field.  Fallible operations return
Option, and the unbound-local failure mode of one source variant is modelled
with Except.
-/

namespace SmartSurface

/-- Round half to even on a rational, the tie-breaking rule of the Python
round builtin, returning an integer. -/
def rhe (x : ℚ) : ℤ :=
  if x - ⌊x⌋ < 1/2 then ⌊x⌋
  else if 1/2 < x - ⌊x⌋ then ⌊x⌋ + 1
  else if ⌊x⌋ % 2 = 0 then ⌊x⌋ else ⌊x⌋ + 1

/-- Python round(x, nd) on exact rationals. -/
def roundTo (nd : ℕ) (x : ℚ) : ℚ := (rhe (x * 10 ^ nd) : ℚ) / 10 ^ nd

/-- Python round(x, 2). -/
def round2 (x : ℚ) : ℚ := roundTo 2 x

/-- Python round(x, 3). -/
def round3 (x : ℚ) : ℚ := roundTo 3 x

lemma rhe_bounds (x : ℚ) : x - 1/2 ≤ (rhe x : ℚ) ∧ (rhe x : ℚ) ≤ x + 1/2 := by
  have h1 : (⌊x⌋ : ℚ) ≤ x := Int.floor_le x
  have h2 : x - 1 < (⌊x⌋ : ℚ) := Int.sub_one_lt_floor x
  unfold rhe
  split_ifs <;> constructor <;> push_cast <;> linarith

lemma rhe_intCast (k : ℤ) : rhe (k : ℚ) = k := by
  unfold rhe
  rw [Int.floor_intCast]
  simp

lemma round2_eq (x : ℚ) : round2 x = (rhe (x * 100) : ℚ) / 100 := by
  unfold round2 roundTo
  norm_num

lemma round3_eq (x : ℚ) : round3 x = (rhe (x * 1000) : ℚ) / 1000 := by
  unfold round3 roundTo
  norm_num

lemma round3_one : round3 1 = 1 := by
  rw [round3_eq]
  rw [show ((1 : ℚ) * 1000) = ((1000 : ℤ) : ℚ) by norm_num, rhe_intCast]
  norm_num

lemma round3_bounds (q : ℚ) (h0 : 0 ≤ q) (h1 : q ≤ 1) :
    0 ≤ round3 q ∧ round3 q ≤ 1 := by
  obtain ⟨hl, hu⟩ := rhe_bounds (q * 1000)
  have hk0 : (0 : ℤ) ≤ rhe (q * 1000) := by
    have h : (-1 : ℚ) < (rhe (q * 1000) : ℚ) := by nlinarith
    have h2 : (-1 : ℤ) < rhe (q * 1000) := by exact_mod_cast h
    omega
  have hk1 : rhe (q * 1000) ≤ 1000 := by
    have h : (rhe (q * 1000) : ℚ) < 1001 := by nlinarith
    have h2 : rhe (q * 1000) < 1001 := by exact_mod_cast h
    omega
  constructor
  · rw [round3_eq]
    positivity
  · rw [round3_eq]
    rw [div_le_one (by norm_num)]
    exact_mod_cast hk1

/-- statistics.mean: sum divided by length (used only on nonempty lists in the
sources). -/
def mean (xs : List ℚ) : ℚ := xs.sum / xs.length

/-- statistics.pvariance: population variance, divisor equal to the sample
count.  The source functions compute statistics.pstdev, which is the square
root of this quantity; the embedding carries the square. -/
def pvariance (xs : List ℚ) : ℚ :=
  (xs.map (fun x => (x - mean xs) ^ 2)).sum / xs.length

/-- statistics.variance: sample variance, divisor equal to the sample count
minus one.  statistics.stdev is its square root; the embedding carries the
square. -/
def variance (xs : List ℚ) : ℚ :=
  (xs.map (fun x => (x - mean xs) ^ 2)).sum / ((xs.length : ℚ) - 1)

lemma variance_mul_pvariance (xs : List ℚ) (h : 1 < xs.length) :
    variance xs * ((xs.length : ℚ) - 1) = pvariance xs * xs.length := by
  have hn : ((xs.length : ℚ)) ≠ 0 := by
    have : (0 : ℚ) < xs.length := by exact_mod_cast Nat.lt_of_lt_of_le Nat.zero_lt_one h.le
    exact ne_of_gt this
  have hn1 : ((xs.length : ℚ) - 1) ≠ 0 := by
    have : (1 : ℚ) < xs.length := by exact_mod_cast h
    intro hc
    nlinarith
  unfold variance pvariance
  rw [div_mul_cancel₀ _ hn1, div_mul_cancel₀ _ hn]

/-!
Echo-line polling skeletons.  The echo line is a function from discrete time
(one unit per loop iteration) to its boolean level.  A fuel argument carries
the number of iterations remaining before the deadline; the source variant
with no deadline takes the fuel as an arbitrary observation bound.
-/

/-- The polling loop of measure_distance_once in menu.py (lines 178 to 191):
read the echo level; once it equals lvl the loop exits with the current time;
otherwise the body runs, and when the deadline has passed the function returns
None.  Fuel counts the iterations left before the deadline check fires. -/
def wait_level (echo : ℕ → Bool) (lvl : Bool) : ℕ → ℕ → Option ℕ
  | 0, t => if echo t = lvl then some t else none
  | fuel + 1, t => if echo t = lvl then some t else wait_level echo lvl fuel (t + 1)

/-- measure_distance_once in menu.py, timing skeleton: wait for the rising
edge then the falling edge, both bounded by the single deadline D fixed
before the first loop; on success the pair of edge times is returned, and a
deadline hit in either phase yields none.  The numeric conversion of the
elapsed width is measure_distance_cm below. -/
def measure_poll (echo : ℕ → Bool) (D : ℕ) : Option (ℕ × ℕ) :=
  match wait_level echo true D 0 with
  | none => none
  | some tr =>
    match wait_level echo false (D - tr) tr with
    | none => none
    | some te => some (tr, te)

/-- The while loops of ultrasonic_distance in autorun.py (lines 77 to 80):
the loop continues while the echo level equals lvl and time is before the
deadline, assigning the pulse timestamp inside the body; it returns the exit
time together with the last assigned timestamp, which is none when the body
never ran. -/
def poll_while (echo : ℕ → Bool) (lvl : Bool) : ℕ → ℕ → Option ℕ → ℕ × Option ℕ
  | 0, t, pulse => (t, pulse)
  | fuel + 1, t, pulse =>
    if echo t = lvl then poll_while echo lvl fuel (t + 1) (some t) else (t, pulse)

/-- ultrasonic_distance in autorun.py, timing skeleton (lines 74 to 82): two
bounded while loops sharing one deadline; afterwards the code subtracts
pulse_end - pulse_start unconditionally, so whenever either loop body never
ran the corresponding local is unbound and Python raises NameError, modelled
as an error value. -/
def ultrasonic_poll (echo : ℕ → Bool) (D : ℕ) : Except String (ℕ × ℕ) :=
  match (poll_while echo false D 0 none) with
  | (t1, ps) =>
    match ps, (poll_while echo true (D - t1) t1 none).2 with
    | some s, some e => Except.ok (s, e)
    | _, _ => Except.error "NameError"

/-- The edge-wait loops of get_distance in diagnostic.py (lines 108 to 113):
identical polling but with no deadline check at all.  The fuel argument is an
arbitrary bound on the number of observed iterations; none means the loop was
still running after that many iterations. -/
def get_distance_wait (echo : ℕ → Bool) (lvl : Bool) : ℕ → ℕ → Option ℕ
  | 0, _ => none
  | fuel + 1, t => if echo t = lvl then some t else get_distance_wait echo lvl fuel (t + 1)

lemma get_distance_wait_stuck (fuel : ℕ) :
    ∀ t, get_distance_wait (fun _ => false) true fuel t = none := by
  induction fuel with
  | zero => intro t; rfl
  | succ n ih => intro t; simpa [get_distance_wait] using ih (t + 1)

/-!
Single-shot acquisition with retries, app.py.
-/

/-- DISTANCE_RETRIES in app.py line 52. -/
def DISTANCE_RETRIES : ℕ := 4

/-- The plausibility filter of read_distance_once, app.py line 263:
d >= 0.5 and d <= 400.0 on the distance in centimetres. -/
def valid_cm (d : ℚ) : Bool := decide ((1 : ℚ)/2 ≤ d) && decide (d ≤ 400)

/-- read_distance_once in app.py (lines 243 to 271) over the list of raw
sensor outcomes, one per retry attempt: some r is the value of
distance_sensor.distance in metres, none is a raised driver exception (caught
by the source, which then retries).  A valid reading is scaled to
centimetres, rounded to two decimals and returned at once; an invalid or
failed attempt falls through to the next attempt; an exhausted attempt list
returns none.  The caller passes a list of length DISTANCE_RETRIES. -/
def read_distance_once : List (Option ℚ) → Option ℚ
  | [] => none
  | some r :: rest =>
    if valid_cm (r * 100) then some (round2 (r * 100)) else read_distance_once rest
  | none :: rest => read_distance_once rest

/-- Whether one raw attempt would be accepted by read_distance_once. -/
def attempt_ok (a : Option ℚ) : Bool :=
  match a with
  | none => false
  | some r => valid_cm (r * 100)

/-- Claim C6 as the spec words it, for comparison: the single measurement is
never retried inside a sample, so only the first raw attempt is consulted. -/
def spec_no_retry_read (attempts : List (Option ℚ)) : Option ℚ :=
  match attempts with
  | some r :: _ => if valid_cm (r * 100) then some (round2 (r * 100)) else none
  | _ => none

lemma read_none_iff (attempts : List (Option ℚ)) :
    read_distance_once attempts = none ↔ ∀ a ∈ attempts, attempt_ok a = false := by
  induction attempts with
  | nil => simp [read_distance_once]
  | cons a rest ih =>
    cases a with
    | none => simp [read_distance_once, attempt_ok, ih]
    | some r =>
      by_cases hv : valid_cm (r * 100) = true
      · simp [read_distance_once, attempt_ok, hv]
      · simp only [Bool.not_eq_true] at hv
        simp [read_distance_once, attempt_ok, hv, ih]

lemma round2_props (d : ℚ) (h1 : 1/2 ≤ d) (h2 : d ≤ 400) :
    1/2 ≤ round2 d ∧ round2 d ≤ 400 ∧ ∃ m : ℤ, round2 d = (m : ℚ) / 100 := by
  obtain ⟨hl, hu⟩ := rhe_bounds (d * 100)
  have hk1 : (50 : ℤ) ≤ rhe (d * 100) := by
    have h : (49 : ℚ) < (rhe (d * 100) : ℚ) := by nlinarith
    have h' : (49 : ℤ) < rhe (d * 100) := by exact_mod_cast h
    omega
  have hk2 : rhe (d * 100) ≤ 40000 := by
    have h : (rhe (d * 100) : ℚ) < 40001 := by nlinarith
    have h' : rhe (d * 100) < 40001 := by exact_mod_cast h
    omega
  refine ⟨?_, ?_, ⟨rhe (d * 100), round2_eq d⟩⟩
  · rw [round2_eq]
    rw [le_div_iff₀ (by norm_num)]
    have : (50 : ℚ) ≤ (rhe (d * 100) : ℚ) := by exact_mod_cast hk1
    linarith
  · rw [round2_eq]
    rw [div_le_iff₀ (by norm_num)]
    have : (rhe (d * 100) : ℚ) ≤ 40000 := by exact_mod_cast hk2
    linarith

lemma read_some_bounds (attempts : List (Option ℚ)) :
    ∀ v, read_distance_once attempts = some v →
      1/2 ≤ v ∧ v ≤ 400 ∧ ∃ m : ℤ, v = (m : ℚ) / 100 := by
  induction attempts with
  | nil => intro v hv; simp [read_distance_once] at hv
  | cons a rest ih =>
    intro v hv
    cases a with
    | none => exact ih v hv
    | some r =>
      by_cases hval : valid_cm (r * 100) = true
      · rw [read_distance_once, if_pos hval] at hv
        have hb : (1:ℚ)/2 ≤ r * 100 ∧ r * 100 ≤ 400 := by
          have := hval
          simp only [valid_cm, Bool.and_eq_true, decide_eq_true_eq] at this
          exact this
        obtain ⟨hv1, hv2, hv3⟩ := round2_props (r * 100) hb.1 hb.2
        cases hv
        exact ⟨hv1, hv2, hv3⟩
      · simp only [Bool.not_eq_true] at hval
        rw [read_distance_once, if_neg (by simp [hval])] at hv
        exact ih v hv

/-!
Batch collection and statistics, app.py api_measure_shape and
api_measure_material.
-/

/-- The collection loop of api_measure_shape and api_measure_material in
app.py (lines 358 to 371 and 389 to 400): every sample outcome, valid or
none, is appended to the readings list in order, and each none increments the
missing counter.  Returns (readings, missing). -/
def collect : List (Option ℚ) → List (Option ℚ) × ℕ
  | [] => ([], 0)
  | none :: rest => (none :: (collect rest).1, (collect rest).2 + 1)
  | some v :: rest => (some v :: (collect rest).1, (collect rest).2)

/-- The valid-subset filter of app.py line 369: drop the none entries. -/
def filterValid (batch : List (Option ℚ)) : List ℚ := batch.filterMap id

/-- missing_frac in app.py lines 371 and 400: round(missing / float(N), 3). -/
def missing_fraction (n missing : ℕ) : ℚ := round3 ((missing : ℚ) / (n : ℚ))

lemma collect_fst : ∀ batch : List (Option ℚ), (collect batch).1 = batch := by
  intro batch
  induction batch with
  | nil => rfl
  | cons a rest ih => cases a <;> simp [collect, ih]

lemma collect_count :
    ∀ batch : List (Option ℚ),
      (collect batch).2 + (filterValid batch).length = batch.length := by
  intro batch
  induction batch with
  | nil => rfl
  | cons a rest ih =>
    cases a <;> simp [collect, filterValid, List.filterMap_cons] at ih ⊢ <;> omega

lemma filterValid_replicate_none (n : ℕ) :
    filterValid (List.replicate n (none : Option ℚ)) = [] := by
  induction n with
  | zero => rfl
  | succ m ih =>
    simp only [filterValid, List.replicate_succ, List.filterMap_cons] at ih ⊢
    exact ih

lemma collect_replicate_none (n : ℕ) :
    (collect (List.replicate n (none : Option ℚ))).2 = n := by
  induction n with
  | zero => rfl
  | succ m ih => simp [List.replicate_succ, collect, ih]

/-!
Classifiers.  app.py computes std_v = round(statistics.pstdev(valid), 3) and
compares it against fixed thresholds; the embeddings below come in two forms:
a direct form taking the computed std_v as argument (exactly the comparison
chains of the sources), and a variance-carrying form for the full batch
functions, where each threshold c on the standard deviation becomes the
threshold c squared on the variance (equivalent for nonnegative values except
when the three-decimal rounding of the standard deviation crosses the
threshold; no claim instantiates such a point).
-/

/-- The shape label chain of classify_shape_from_stats in app.py lines 281 to
286, on the computed std_v. -/
def app_shape_label (std_v : ℚ) : String :=
  if std_v < 0.3 then "Flat Surface"
  else if std_v < 1.0 then "Slightly Curved"
  else "Irregular Surface"

/-- The same chain on the variance (squared thresholds). -/
def app_shape_label_var (varV : ℚ) : String :=
  if varV < 9/100 then "Flat Surface"
  else if varV < 1 then "Slightly Curved"
  else "Irregular Surface"

/-- classify_shape_from_stats in app.py (lines 275 to 287): empty valid list
gives the degenerate triple; otherwise the rounded mean, the dispersion
(carried as variance, 0.0 for a single sample, population variance
otherwise), and the tiered label. -/
def classify_shape_from_stats (valid : List ℚ) : Option ℚ × Option ℚ × String :=
  if valid.isEmpty then (none, none, "No reliable echoes")
  else
    (some (round3 (mean valid)),
     some (if 1 < valid.length then pvariance valid else 0),
     app_shape_label_var (if 1 < valid.length then pvariance valid else 0))

/-- The material verdict chain of classify_material_from_stats in app.py
lines 295 to 300, on the computed std_v and missing fraction. -/
def classify_material_core (std_v missing_fraction : ℚ) : String :=
  if missing_fraction > 0.4 ∨ std_v > 1.5 then "Likely Absorbing / Transparent"
  else if std_v > 1.0 then "Possibly Absorbing / Irregular"
  else "Reflective / Good for Ultrasonic"

/-- The same chain on the variance (squared thresholds). -/
def classify_material_var (varV missing_fraction : ℚ) : String :=
  if missing_fraction > 0.4 ∨ varV > 9/4 then "Likely Absorbing / Transparent"
  else if varV > 1 then "Possibly Absorbing / Irregular"
  else "Reflective / Good for Ultrasonic"

/-- classify_material_from_stats in app.py (lines 289 to 301): an empty valid
list short-circuits to the no-echo verdict with undefined statistics before
any division; otherwise the verdict, the rounded mean and the dispersion
(variance; 0.0 for a single sample). -/
def classify_material_from_stats (valid : List ℚ) (missing_fraction : ℚ) :
    String × Option ℚ × Option ℚ :=
  if valid.isEmpty then
    ("No echoes - likely highly absorbing/transparent", none, none)
  else
    (classify_material_var (if 1 < valid.length then pvariance valid else 0)
        missing_fraction,
     some (round3 (mean valid)),
     some (if 1 < valid.length then pvariance valid else 0))

/-- classify_shape in menu.py (lines 235 to 241). -/
def classify_shape (std_dev : ℚ) : String :=
  if std_dev < 1.0 then "Flat"
  else if std_dev < 3.0 then "Curved"
  else "Irregular"

/-- The shape label of test_shape in autorun.py line 111: a single 0.5
threshold and only two labels. -/
def test_shape_label (std : ℚ) : String :=
  if std < 0.5 then "Flat" else "Irregular"

/-- The statistics step of option_shape in menu.py (lines 284 to 296): a
missing reading is replaced by 0.0 before being appended (no filtering, no
missing counter), the mean is rounded to two decimals, and the dispersion is
the SAMPLE standard deviation statistics.stdev, carried here as the sample
variance (divisor length minus one); 0.0 when only one reading. -/
def menu_shape_stats (samples : List (Option ℚ)) : ℚ × ℚ :=
  let readings := samples.map (fun d => d.getD 0)
  (round2 (mean readings),
   if 1 < readings.length then variance readings else 0)

/-- The statistics step of test_shape in autorun.py (lines 109 to 110):
statistics.mean and statistics.stdev (sample variance, carried squared). -/
def autorun_shape_stats (readings : List ℚ) : ℚ × ℚ :=
  (mean readings, variance readings)

/-!
Shape tiers, abstract view used to compare the call sites.
-/

inductive Shape
  | flat
  | curved
  | irregular
  deriving DecidableEq

/-- Map each shape label string of the sources onto the abstract tier. -/
def shape_tier (label : String) : Shape :=
  if label = "Flat Surface" ∨ label = "Flat" then Shape.flat
  else if label = "Slightly Curved" ∨ label = "Curved" then Shape.curved
  else Shape.irregular

/-- The tiered shape classifier exactly as the spec words it, parametrized by
one threshold pair. -/
def spec_shape_tier (low high s : ℚ) : Shape :=
  if s < low then Shape.flat else if s < high then Shape.curved else Shape.irregular

/-!
Speed of sound and time-to-distance conversion.
-/

/-- speed_of_sound in app.py (lines 235 to 239): None propagates, otherwise
round(331.4 + 0.6 * ambient_c, 2). -/
def speed_of_sound (ambient_c : Option ℚ) : Option ℚ :=
  match ambient_c with
  | none => none
  | some t => some (round2 (331.4 + 0.6 * t))

/-- speed_of_sound_m_s in menu.py (lines 162 to 163): 331.0 + 0.6 * ambient_c. -/
def speed_of_sound_m_s (ambient_c : ℚ) : ℚ := 331.0 + 0.6 * ambient_c

/-- The conversion step of measure_distance_once in menu.py (lines 192 to
197): distance_cm = round(elapsed * speed * 100 / 2, 2) with the menu speed
formula. -/
def measure_distance_cm (elapsed ambient : ℚ) : ℚ :=
  round2 (elapsed * speed_of_sound_m_s ambient * 100 / 2)

/-- The conversion step of ultrasonic_distance in autorun.py (lines 83 to
85): speed = 331.4 + 0.6 * T, distance = duration * speed / 2 * 100. -/
def ultrasonic_distance_cm (duration ambient : ℚ) : ℚ :=
  duration * (331.4 + 0.6 * ambient) / 2 * 100

/-- The conversion exactly as the spec words it: distance_cm equals
elapsed_seconds times the temperature-corrected speed in centimetres per
second, divided by two. -/
def spec_distance_cm (elapsed ambient : ℚ) : ℚ :=
  elapsed * ((331.4 + 0.6 * ambient) * 100) / 2

/-!
Accuracy classifier.
-/

inductive Verdict
  | good
  | moderate
  | poor
  deriving DecidableEq

/-- Modelled from the spec: no classify_accuracy function exists anywhere
under src, so the section 4.5 description is transcribed directly.  Score is
max(0, 100 - k1 * stdev - k2 * distance - k3 * abs(ambient - reference)),
tiers at score above 80 (Good) and above 50 (Moderate), else Poor; a missing
distance forces verdict Poor with score 0 before the formula is reached. -/
def classify_accuracy (k1 k2 k3 refTemp : ℚ) (distance : Option ℚ)
    (ambient stdev : ℚ) : Verdict × ℚ :=
  match distance with
  | none => (Verdict.poor, 0)
  | some d =>
    (if 80 < max 0 (100 - k1 * stdev - k2 * d - k3 * |ambient - refTemp|) then
        Verdict.good
      else if 50 < max 0 (100 - k1 * stdev - k2 * d - k3 * |ambient - refTemp|) then
        Verdict.moderate
      else Verdict.poor,
     max 0 (100 - k1 * stdev - k2 * d - k3 * |ambient - refTemp|))

/-!
Claim theorems.
-/

lemma mean_singleton (x : ℚ) : mean [x] = x := by
  simp [mean]

lemma valid_cm_iff (d : ℚ) : valid_cm d = true ↔ 1/2 ≤ d ∧ d ≤ 400 := by
  simp [valid_cm]

lemma valid_cm_eq_true (d : ℚ) (h1 : 1/2 ≤ d) (h2 : d ≤ 400) : valid_cm d = true :=
  (valid_cm_iff d).mpr ⟨h1, h2⟩

lemma valid_cm_eq_false (d : ℚ) (h : ¬(1/2 ≤ d ∧ d ≤ 400)) : valid_cm d = false := by
  rcases Bool.eq_false_or_eq_true (valid_cm d) with ht | hf
  · exact absurd ((valid_cm_iff d).mp ht) h
  · exact hf

lemma round2_intCast (k : ℤ) : round2 (k : ℚ) = (k : ℚ) := by
  rw [round2_eq, show ((k : ℚ) * 100) = ((k * 100 : ℤ) : ℚ) by push_cast; ring,
    rhe_intCast]
  push_cast
  field_simp

lemma round2_hundred : round2 ((1 : ℚ) * 100) = 100 := by
  rw [show ((1 : ℚ) * 100) = ((100 : ℤ) : ℚ) by norm_num, round2_intCast]
  norm_num

/-- C1: on an echo line that never answers, the three single-shot variants
diverge.  The menu.py skeleton returns none when the deadline elapses before
the rising edge, and also when the line rises but never falls again before
the deadline; the autorun.py skeleton instead leaves a pulse local unassigned
and raises NameError; and the diagnostic.py wait loop, which has no deadline,
is still polling after any number of iterations. -/
theorem c1_single_shot_timeout_eval :
    measure_poll (fun _ => false) 50 = none ∧
    measure_poll (fun t => decide (5 ≤ t)) 50 = none ∧
    ultrasonic_poll (fun _ => false) 40 = Except.error "NameError" ∧
    (∀ fuel, get_distance_wait (fun _ => false) true fuel 0 = none) :=
  ⟨rfl, rfl, rfl, fun fuel => get_distance_wait_stuck fuel 0⟩

/-- C2 counterexample: menu.py option_shape does not filter the missing
reading out (it becomes 0.0) and divides by count minus one, so on the batch
[1, 3, missing] its dispersion (squared) is 7/3, while the population
variance of the valid subset [1, 3] claimed by the spec is 1. -/
theorem c2_reduction_counterexample :
    (menu_shape_stats [some 1, some 3, none]).2 = 7/3 ∧
    pvariance (filterValid [some 1, some 3, none]) = 1 ∧
    ((7 : ℚ)/3 ≠ 1) := by
  refine ⟨?_, ?_, by norm_num⟩
  · norm_num [menu_shape_stats, variance, mean]
  · norm_num [pvariance, mean, filterValid, List.filterMap_cons]

/-- C2 amended: the app.py reduction filters none entries, returns undefined
statistics on zero valid samples, dispersion 0.0 on exactly one valid sample
and the population variance (divisor = count) otherwise; menu.py substitutes
0.0 for missing readings (no filtering) and uses the sample variance, whose
divisor is count minus one; autorun.py likewise uses the sample variance on
its readings, which contain no missing entries at all (its acquisition
raises instead of returning none). -/
theorem c2_statistics_reduction (b : List (Option ℚ)) (xs : List ℚ) :
    (filterValid b = [] →
      classify_shape_from_stats (filterValid b) = (none, none, "No reliable echoes")) ∧
    (∀ x, filterValid b = [x] →
      classify_shape_from_stats (filterValid b) =
        (some (round3 x), some 0, app_shape_label_var 0)) ∧
    (1 < (filterValid b).length →
      (classify_shape_from_stats (filterValid b)).2.1 =
        some (pvariance (filterValid b))) ∧
    (1 < xs.length → (menu_shape_stats (xs.map some)).2 = variance xs) ∧
    (1 < xs.length →
      variance xs * ((xs.length : ℚ) - 1) = pvariance xs * xs.length) ∧
    (autorun_shape_stats xs).2 = variance xs := by
  refine ⟨fun h => by rw [h]; rfl, fun x h => ?_, fun h => ?_, fun h => ?_,
    fun h => variance_mul_pvariance xs h, rfl⟩
  · rw [h]
    simp [classify_shape_from_stats, mean_singleton]
  · have hnil : filterValid b ≠ [] := by
      intro hc
      rw [hc] at h
      simp at h
    have hne : (filterValid b).isEmpty = false := by
      cases hfb : filterValid b with
      | nil => exact absurd hfb hnil
      | cons y ys => rfl
    simp [classify_shape_from_stats, hne, h]
  · have hlen : (xs.map (some : ℚ → Option ℚ)).map (fun d => d.getD 0) = xs := by
      simp [Function.comp_def]
    simp only [menu_shape_stats, hlen]
    simp [h]

theorem c2_statistics_reduction_witness :
    classify_shape_from_stats (filterValid [some 2, none]) =
      (some (round3 2), some 0, app_shape_label_var 0) ∧
    (menu_shape_stats ([4, 6].map some)).2 = variance [4, 6] :=
  ⟨(c2_statistics_reduction [some 2, none] [4, 6]).2.1 2
      (by simp [filterValid, List.filterMap_cons]),
   (c2_statistics_reduction [some 2, none] [4, 6]).2.2.2.1 (by norm_num)⟩

/-- C3 counterexample: at the 0.4 boundary itself the missing-fraction
condition does not fire (the comparison is strict), so with a small
dispersion the verdict is Reflective, not Absorbing. -/
theorem c3_material_boundary_counterexample :
    classify_material_core (1/2) (2/5) = "Reflective / Good for Ultrasonic" ∧
    "Reflective / Good for Ultrasonic" ≠ "Likely Absorbing / Transparent" := by
  refine ⟨?_, by decide⟩
  norm_num [classify_material_core]

/-- C3 amended: Absorbing when the missing fraction strictly exceeds 0.4 or
the dispersion strictly exceeds 1.5 (either alone suffices); otherwise
PossiblyAbsorbing above 1.0, otherwise Reflective; the 20-sample scenario
with 8 missing (fraction exactly 0.4) and valid dispersion 2.0 is Absorbing
through the dispersion condition, also when run through the full batch
function on twelve valid readings with population standard deviation 2. -/
theorem c3_material_classifier (s mf : ℚ) :
    (0.4 < mf ∨ 1.5 < s →
      classify_material_core s mf = "Likely Absorbing / Transparent") ∧
    (mf ≤ 0.4 → s ≤ 1.5 → 1.0 < s →
      classify_material_core s mf = "Possibly Absorbing / Irregular") ∧
    (mf ≤ 0.4 → s ≤ 1.0 →
      classify_material_core s mf = "Reflective / Good for Ultrasonic") ∧
    classify_material_core 2 (2/5) = "Likely Absorbing / Transparent" ∧
    (classify_material_from_stats [8, 12, 8, 12, 8, 12, 8, 12, 8, 12, 8, 12]
        (2/5)).1 = "Likely Absorbing / Transparent" := by
  refine ⟨fun h => ?_, fun h1 h2 h3 => ?_, fun h1 h2 => ?_,
    by norm_num [classify_material_core], ?_⟩
  · unfold classify_material_core
    rw [if_pos h]
  · unfold classify_material_core
    rw [if_neg (by push_neg; exact ⟨h1, h2⟩), if_pos h3]
  · unfold classify_material_core
    rw [if_neg (by push_neg; exact ⟨h1, by linarith⟩), if_neg (by push_neg; exact h2)]
  · have hvar : pvariance [8, 12, 8, 12, 8, 12, 8, 12, 8, 12, 8, 12] = 4 := by
      norm_num [pvariance, mean]
    norm_num [classify_material_from_stats, classify_material_var, hvar]

theorem c3_material_classifier_witness :
    classify_material_core 0 (1/2) = "Likely Absorbing / Transparent" :=
  (c3_material_classifier 0 (1/2)).1 (Or.inl (by norm_num))

/-- C4: on an all-missing batch of any positive size the valid subset is
empty, the missing count is the full size, the missing fraction is exactly
one, and both app.py classifiers return their defined degenerate results with
undefined statistics instead of dividing by zero. -/
theorem c4_empty_batch (n : ℕ) (h : 0 < n) :
    filterValid (List.replicate n (none : Option ℚ)) = [] ∧
    (collect (List.replicate n (none : Option ℚ))).2 = n ∧
    missing_fraction n (collect (List.replicate n (none : Option ℚ))).2 = 1 ∧
    classify_shape_from_stats (filterValid (List.replicate n (none : Option ℚ))) =
      (none, none, "No reliable echoes") ∧
    classify_material_from_stats
        (filterValid (List.replicate n (none : Option ℚ))) 1 =
      ("No echoes - likely highly absorbing/transparent", none, none) := by
  have h1 := filterValid_replicate_none n
  have h2 := collect_replicate_none n
  refine ⟨h1, h2, ?_, by rw [h1]; rfl, by rw [h1]; rfl⟩
  rw [h2]
  unfold missing_fraction
  rw [div_self (by exact_mod_cast h.ne' : ((n : ℚ) ≠ 0))]
  exact round3_one

theorem c4_empty_batch_witness :
    missing_fraction 20 (collect (List.replicate 20 (none : Option ℚ))).2 = 1 :=
  (c4_empty_batch 20 (by norm_num)).2.2.1

/-- C5 counterexample: at dispersion 0.7 the three call sites disagree on the
tier, so they do not share one configured threshold pair. -/
theorem c5_shape_threshold_counterexample :
    shape_tier (app_shape_label (7/10)) = Shape.curved ∧
    shape_tier (classify_shape (7/10)) = Shape.flat ∧
    shape_tier (test_shape_label (7/10)) = Shape.irregular ∧
    Shape.curved ≠ Shape.flat := by
  have h1 : app_shape_label (7/10) = "Slightly Curved" := by
    norm_num [app_shape_label]
  have h2 : classify_shape (7/10) = "Flat" := by
    norm_num [classify_shape]
  have h3 : test_shape_label (7/10) = "Irregular" := by
    norm_num [test_shape_label]
  rw [h1, h2, h3]
  refine ⟨by decide, by decide, by decide, by decide⟩

/-- C5 amended: each call site is a tiered threshold function of the
dispersion, but with its own thresholds: app.py with the pair (0.3, 1.0),
menu.py with the pair (1.0, 3.0), and autorun.py with the single threshold
0.5 and no Curved tier at all. -/
theorem c5_shape_tiers (s : ℚ) :
    shape_tier (app_shape_label s) = spec_shape_tier 0.3 1.0 s ∧
    shape_tier (classify_shape s) = spec_shape_tier 1.0 3.0 s ∧
    shape_tier (test_shape_label s) ≠ Shape.curved := by
  refine ⟨?_, ?_, ?_⟩ <;>
    simp only [app_shape_label, classify_shape, test_shape_label, spec_shape_tier] <;>
    split_ifs <;> decide

/-- C6 counterexample: with a first raw attempt below the plausible bound and
a valid second attempt, app.py read_distance_once returns the second
attempt's value, while the no-retry acquisition described by the claim would
return none: the sample IS retried automatically. -/
theorem c6_no_retry_counterexample :
    read_distance_once [some (1/1000), some 1, some 1, some 1] = some 100 ∧
    spec_no_retry_read [some (1/1000), some 1, some 1, some 1] = none ∧
    (some (100 : ℚ) ≠ (none : Option ℚ)) := by
  have h1 : valid_cm ((1/1000 : ℚ) * 100) = false :=
    valid_cm_eq_false _ (by norm_num)
  have h2 : valid_cm ((1 : ℚ) * 100) = true :=
    valid_cm_eq_true _ (by norm_num) (by norm_num)
  refine ⟨?_, ?_, by simp⟩
  · simp only [read_distance_once]
    rw [if_neg (by rw [h1]; exact Bool.false_ne_true), if_pos h2, round2_hundred]
  · simp only [spec_no_retry_read]
    rw [if_neg (by rw [h1]; exact Bool.false_ne_true)]

/-- C6 amended: a sample surfaces as none exactly when every one of its raw
attempts (DISTANCE_RETRIES of them at the call site) fails, and a failed or
invalid attempt falls through to the remaining attempts: the read is retried
automatically within the sample. -/
theorem c6_sample_retries (attempts rest : List (Option ℚ)) (r : ℚ) :
    (read_distance_once attempts = none ↔
      ∀ a ∈ attempts, attempt_ok a = false) ∧
    (attempt_ok (some r) = false →
      read_distance_once (some r :: rest) = read_distance_once rest) ∧
    read_distance_once (none :: rest) = read_distance_once rest := by
  refine ⟨read_none_iff attempts, fun h => ?_, rfl⟩
  have hv : valid_cm (r * 100) = false := by simpa [attempt_ok] using h
  simp [read_distance_once, hv]

theorem c6_sample_retries_witness :
    read_distance_once [some (1/1000), some 1] = read_distance_once [some 1] :=
  (c6_sample_retries [] [some 1] (1/1000)).2.1
    (valid_cm_eq_false _ (by norm_num))

/-- C7 counterexample: the reported missing fraction is rounded to three
decimals, so with 1 missing of 15 it is 67/1000, which differs from the
exact quotient 1/15. -/
theorem c7_missing_fraction_counterexample :
    (collect (none :: List.replicate 14 (some (10 : ℚ)))).2 = 1 ∧
    ((none :: List.replicate 14 (some (10 : ℚ))).length = 15) ∧
    missing_fraction (none :: List.replicate 14 (some (10 : ℚ))).length
      (collect (none :: List.replicate 14 (some (10 : ℚ)))).2 = 67/1000 ∧
    ((67 : ℚ)/1000 ≠ 1/15) := by
  have h1 : (collect (none :: List.replicate 14 (some (10 : ℚ)))).2 = 1 := by
    have hz : ∀ m : ℕ, (collect (List.replicate m (some (10 : ℚ)))).2 = 0 := by
      intro m
      induction m with
      | zero => rfl
      | succ k ih => simp [List.replicate_succ, collect, ih]
    show (collect (List.replicate 14 (some (10 : ℚ)))).2 + 1 = 1
    rw [hz 14]
  have h2 : (none :: List.replicate 14 (some (10 : ℚ))).length = 15 := by
    simp
  refine ⟨h1, h2, ?_, by norm_num⟩
  rw [h1, h2]
  unfold missing_fraction
  rw [round3_eq]
  norm_num [rhe]

/-- C7 amended: every collected batch keeps all its slots in order, the
missing count plus the number of valid samples equals the batch length, and
the missing fraction, which the code reports as the quotient rounded to three
decimals, lies between 0 and 1. -/
theorem c7_batch_invariant (samples : List (Option ℚ)) (h : samples ≠ []) :
    (collect samples).1 = samples ∧
    (collect samples).2 + (filterValid samples).length = samples.length ∧
    0 ≤ missing_fraction samples.length (collect samples).2 ∧
    missing_fraction samples.length (collect samples).2 ≤ 1 ∧
    missing_fraction samples.length (collect samples).2 =
      round3 (((collect samples).2 : ℚ) / (samples.length : ℚ)) := by
  have hc2 := collect_count samples
  have hlen : 0 < samples.length := List.length_pos.mpr h
  have hm : (collect samples).2 ≤ samples.length := by omega
  have hq0 : 0 ≤ ((collect samples).2 : ℚ) / (samples.length : ℚ) :=
    div_nonneg (by positivity) (by positivity)
  have hq1 : ((collect samples).2 : ℚ) / (samples.length : ℚ) ≤ 1 := by
    rw [div_le_one (by exact_mod_cast hlen)]
    exact_mod_cast hm
  obtain ⟨hb0, hb1⟩ := round3_bounds _ hq0 hq1
  exact ⟨collect_fst samples, hc2, hb0, hb1, rfl⟩

theorem c7_batch_invariant_witness :
    missing_fraction ([none, some 10, some 12] : List (Option ℚ)).length
      (collect ([none, some 10, some 12] : List (Option ℚ))).2 ≤ 1 :=
  (c7_batch_invariant [none, some 10, some 12] (by simp)).2.2.2.1

/-- C8: a missing distance forces the accuracy verdict Poor with score 0
regardless of every weighting constant, the reference temperature, the
ambient temperature and the dispersion argument. -/
theorem c8_accuracy_none_poor (k1 k2 k3 refTemp ambient stdev : ℚ) :
    classify_accuracy k1 k2 k3 refTemp none ambient stdev = (Verdict.poor, 0) :=
  rfl

/-- C9 counterexample: menu.py converts with the speed 331.0 + 0.6 T, so at
20 degrees a 10 ms echo width becomes 171.5 cm, while the spec formula with
331.4 + 0.6 T gives 171.7 cm. -/
theorem c9_speed_of_sound_counterexample :
    speed_of_sound_m_s 20 = 343 ∧
    measure_distance_cm (1/100) 20 = 343/2 ∧
    spec_distance_cm (1/100) 20 = 1717/10 ∧
    ((343 : ℚ)/2 ≠ 1717/10) := by
  refine ⟨by norm_num [speed_of_sound_m_s], ?_,
    by norm_num [spec_distance_cm], by norm_num⟩
  have harg : (1/100 : ℚ) * speed_of_sound_m_s 20 * 100 / 2 = 343/2 := by
    norm_num [speed_of_sound_m_s]
  rw [measure_distance_cm, harg, round2_eq]
  norm_num [rhe]

/-- C9 amended: autorun.py converts exactly as the spec formula with speed
331.4 + 0.6 T; app.py computes the same speed (rounded to two decimals, for
display only); menu.py uses the same conversion shape but with the constant
331.0, which undershoots the spec formula by exactly 20 centimetres per
second of echo width. -/
theorem c9_distance_conversion (e t : ℚ) :
    ultrasonic_distance_cm e t = spec_distance_cm e t ∧
    measure_distance_cm e t = round2 (e * ((331.0 + 0.6 * t) * 100) / 2) ∧
    spec_distance_cm e t - e * ((331.0 + 0.6 * t) * 100) / 2 = 20 * e ∧
    speed_of_sound (some t) = some (round2 (331.4 + 0.6 * t)) := by
  refine ⟨by unfold ultrasonic_distance_cm spec_distance_cm; ring, ?_, ?_, rfl⟩
  · unfold measure_distance_cm speed_of_sound_m_s
    congr 1
    ring
  · unfold spec_distance_cm
    ring

/-- C10: every value returned by read_distance_once lies in the closed
interval from 0.5 to 400 centimetres and is an integer number of hundredths
(two-decimal rounding), and when every raw attempt is invalid the result is
none. -/
theorem c10_plausible_range (attempts : List (Option ℚ)) :
    (∀ v, read_distance_once attempts = some v →
      1/2 ≤ v ∧ v ≤ 400 ∧ ∃ m : ℤ, v = (m : ℚ) / 100) ∧
    ((∀ a ∈ attempts, attempt_ok a = false) →
      read_distance_once attempts = none) :=
  ⟨read_some_bounds attempts, fun h => (read_none_iff attempts).mpr h⟩

theorem c10_plausible_range_witness :
    (1 : ℚ)/2 ≤ 100 ∧ (100 : ℚ) ≤ 400 ∧ ∃ m : ℤ, (100 : ℚ) = (m : ℚ)/100 :=
  (c10_plausible_range [some 1, some 1, some 1, some 1]).1 100 (by
    have h2 : valid_cm ((1 : ℚ) * 100) = true :=
      valid_cm_eq_true _ (by norm_num) (by norm_num)
    simp only [read_distance_once]
    rw [if_pos h2, round2_hundred])

end SmartSurface
